import Mathlib

/-!
# SpiceDL — verification of the download-status metadata reconciliation engine

Shallow embedding of the core of the SpiceDL repository: the download status
page component (the current variant, with i18n keys, and where relevant the
older variant with hardcoded strings and without the error-payload check), and
the API client (`checkHealth`, `getDownloadStatus`).

The component's mutable pieces of state (`downloads`, `metadataCache`,
`metadataFetchingRef`, `isMountedRef`, `error`, `loading`, `apiAvailable`) are
collected in a `CompState` record; each synchronous section of the source
(between two `await` suspension points) is embedded as one state-transforming
function, so that interleavings of asynchronous completions can be expressed
by composing the phase functions on states that may have changed in between.
Network results (CosmosAsync, GraphQL, the download service) are supplied by
explicit environments.
-/

namespace SpiceDL

/-! ## Data model (from the API client, `api.ts`) -/

/-- `status: "starting" | "downloading" | "completed" | "failed" | "cancelled"`
from the `DownloadStatus` interface of the API client. -/
inductive DLStatus where
  | starting
  | downloading
  | completed
  | failed
  | cancelled
deriving Repr, DecidableEq

/-- The `DownloadStatus` job record of the API client
(`id`, `url`, `status`, `progress`, `message`, `started_at`, `completed_at`,
`error`). `progress` is a number in 0..100, embedded as `Nat`. -/
structure DownloadStatus where
  id : String
  url : String
  status : DLStatus
  progress : Nat
  message : String
  started_at : String
  completed_at : Option String
  error : Option String
deriving Repr, DecidableEq

/-- `AllStatusResponse` (`{ downloads, total }`) or a single job: the shape of
`GET /status` with or without an `id` query, as consumed by `fetchStatus`
(`"downloads" in status ? status.downloads : [status]`). -/
inductive StatusResponse where
  | all (downloads : List DownloadStatus) (total : Nat)
  | single (d : DownloadStatus)
deriving Repr, DecidableEq

/-- `"downloads" in status ? status.downloads : [status]` from `fetchStatus`. -/
def statusToList : StatusResponse → List DownloadStatus
  | StatusResponse.all ds _ => ds
  | StatusResponse.single d => [d]

/-- The `TrackMetadata` interface of the status page component: `name` plus
optional `artist`, `album`, `imageUrl`, `uri`, `type`. `Option` models an
absent (`undefined`) field; `some ""` models a present empty string. -/
structure TrackMetadata where
  name : String
  artist : Option String := none
  album : Option String := none
  imageUrl : Option String := none
  uri : Option String := none
  type : Option String := none
deriving Repr, DecidableEq

/-! ## JavaScript value helpers

The source probes loosely-typed values with `a || b` chains and truthiness
tests; `Option String` embeds such string-or-undefined values, with `some ""`
counting as falsy exactly as in JavaScript. -/

/-- JavaScript truthiness of a string-or-undefined value: `undefined` and the
empty string are falsy. -/
def truthy : Option String → Bool
  | none => false
  | some s => !(s = "")

/-- `a || b` where `b` is a (string) default: JavaScript returns `b` whenever
`a` is falsy. -/
def orStr (a : Option String) (b : String) : String :=
  match a with
  | some s => if s = "" then b else s
  | none => b

/-- `a || b` on two string-or-undefined values. -/
def orOpt (a b : Option String) : Option String :=
  if truthy a then a else b

/-- `l[i]?.field` style indexing: out-of-range gives `undefined`, and an
in-range element may itself be an absent field. -/
def jsIndex (l : List (Option String)) (i : Nat) : Option String :=
  match l.get? i with
  | some v => v
  | none => none

/-! ## `urlToUri`: the URL pattern match

The source runs
`url.match(/spotify\.com\/(track|album|playlist|artist)\/([a-zA-Z0-9]+)/)`
and on a match builds `spotify:${match[1]}:${match[2]}`. The regex has no
anchors, so it matches at the leftmost position where the literal
`spotify.com/` is followed by one of the four kind words, a slash, and at
least one alphanumeric character; `[a-zA-Z0-9]+` is greedy. No two kind
alternatives can match at the same position (they differ within their first
two characters), so alternative order is immaterial. -/

/-- The character class `[a-zA-Z0-9]` of the capture group. -/
def isSpotifyIdChar (c : Char) : Bool :=
  ('a' ≤ c && c ≤ 'z') || ('A' ≤ c && c ≤ 'Z') || ('0' ≤ c && c ≤ '9')

/-- Try to match `kind ++ "/" ++ [a-zA-Z0-9]+` at the head of `rest`,
returning the kind and the greedily captured id. -/
def matchKindAt (kind : String) (rest : List Char) : Option (String × String) :=
  if rest.take (kind.length + 1) = (kind ++ "/").data then
    let idChars := (rest.drop (kind.length + 1)).takeWhile isSpotifyIdChar
    if idChars.isEmpty then none else some (kind, String.mk idChars)
  else none

/-- Try to match the whole pattern at the head of `cs`. -/
def matchPatternAt (cs : List Char) : Option (String × String) :=
  if cs.take 12 = "spotify.com/".data then
    let rest := cs.drop 12
    match matchKindAt "track" rest with
    | some r => some r
    | none =>
      match matchKindAt "album" rest with
      | some r => some r
      | none =>
        match matchKindAt "playlist" rest with
        | some r => some r
        | none => matchKindAt "artist" rest
  else none

/-- Scan for the leftmost match position, as `String.prototype.match` does. -/
def findPattern : List Char → Option (String × String)
  | [] => none
  | c :: cs =>
    match matchPatternAt (c :: cs) with
    | some r => some r
    | none => findPattern cs

/-- The kind and id captured by the `urlToUri` regex, when the URL matches. -/
def urlToParts (url : String) : Option (String × String) :=
  findPattern url.data

/-- `urlToUri` from the status page component: `spotify:${kind}:${id}` on a
match, `null` otherwise. (The `try`/`catch` around the match can only rethrow
into the `null` return, so it adds nothing to the embedding.) -/
def urlToUri (url : String) : Option String :=
  match urlToParts url with
  | some (kind, id) => some ("spotify:" ++ kind ++ ":" ++ id)
  | none => none

/-! ## Sentinel names and cache primitives

The source encodes resolution state in the cached `name` field using the
sentinel strings of the current (i18n) component variant. -/

/-- The loading placeholder written by `fetchStatus` for an uncached job. -/
def loadingSentinel : String := "Loading..."

/-- The failure placeholder written by `fetchMetadata`'s catch block. -/
def failedSentinel : String := "Failed to fetch metadata"

/-- `cached.name !== "Loading..." && cached.name !== "Failed to fetch metadata"`. -/
def isValidName (n : String) : Bool :=
  !(n = loadingSentinel) && !(n = failedSentinel)

/-- `cached && cached.name !== "Loading..." && cached.name !== "Failed to fetch metadata"`. -/
def isValidMetadata? : Option TrackMetadata → Bool
  | none => false
  | some m => isValidName m.name

/-- `metadataCacheRef.current[url]`: first-binding lookup in the association
list embedding of the cache object. -/
def cacheGet : List (String × TrackMetadata) → String → Option TrackMetadata
  | [], _ => none
  | (k, v) :: rest, url => if k = url then some v else cacheGet rest url

/-- `{ ...metadataCacheRef.current, [url]: m }`: replace or insert the binding
for `url`. -/
def cacheSet (cache : List (String × TrackMetadata)) (url : String)
    (m : TrackMetadata) : List (String × TrackMetadata) :=
  (url, m) :: cache.filter (fun kv => !(kv.1 = url))

/-- `metadataFetchingRef.current.add(url)` (a `Set`: adding a member is a
no-op). -/
def fetchAdd (l : List String) (url : String) : List String :=
  if l.contains url then l else url :: l

/-- `metadataFetchingRef.current.delete(url)`. -/
def fetchRemove (l : List String) (url : String) : List String :=
  l.filter (fun u => !(u = url))

/-! ## Provider environments

The primary provider is `Spicetify.CosmosAsync.get` against the Spotify Web
API; the secondary is the GraphQL fallback block. A `CosmosResponse` embeds
the fields the three Cosmos branches read from the JSON response. -/

/-- The fields of a Cosmos response read by the track/album/playlist branches:
`name`, the error indicators `code` and `error`, `artists[i]?.name`,
`album?.name`, `album?.images?.[i]?.url`, `images?.[i]?.url`, and
`owner?.display_name` / `owner?.name`. -/
structure CosmosResponse where
  name : Option String := none
  code : Option String := none
  error : Option String := none
  artistNames : List (Option String) := []
  albumName : Option String := none
  albumImageUrls : List (Option String) := []
  imageUrls : List (Option String) := []
  ownerDisplayName : Option String := none
  ownerName : Option String := none
deriving Repr, DecidableEq

/-- Provider environment for one run of `fetchMetadata`: whether
`Spicetify.CosmosAsync` exists, the outcome of `CosmosAsync.get` per
`(type, id)` (`Except.error` = the promise rejected; `Except.ok none` = a
null/undefined response), and the net result of the GraphQL fallback block
per `(type, uri)`. -/
structure FetchEnv where
  cosmosAvailable : Bool
  cosmosGet : String → String → Except Unit (Option CosmosResponse)
  graphqlResolve : String → String → Option TrackMetadata

/-- A provider environment in which CosmosAsync is absent and every GraphQL
query yields nothing: the chain can only reach the URL fallback. -/
def emptyFetchEnv : FetchEnv :=
  { cosmosAvailable := false
    cosmosGet := fun _ _ => Except.error ()
    graphqlResolve := fun _ _ => none }

/-- The track branch of the Cosmos phase (current variant): the response is
used only when `response && response.name && !response.code && !response.error`,
i.e. an error payload is rejected. -/
def cosmosTrackMeta (uri : String) (resp : Option CosmosResponse) :
    Option TrackMetadata :=
  match resp with
  | none => none
  | some r =>
    if truthy r.name && !truthy r.code && !truthy r.error then
      some { name := orStr r.name "Unknown Track"
             artist := some (orStr (jsIndex r.artistNames 0) "Unknown Artist")
             album := some (orStr r.albumName "Unknown Album")
             imageUrl := orOpt (jsIndex r.albumImageUrls 0)
               (orOpt (jsIndex r.albumImageUrls 1) (jsIndex r.albumImageUrls 2))
             uri := some uri
             type := some "track" }
    else none

/-- The album branch of the Cosmos phase (current variant); note
`album: response.name` stores the raw field. -/
def cosmosAlbumMeta (uri : String) (resp : Option CosmosResponse) :
    Option TrackMetadata :=
  match resp with
  | none => none
  | some r =>
    if truthy r.name && !truthy r.code && !truthy r.error then
      some { name := orStr r.name "Unknown Album"
             artist := some (orStr (jsIndex r.artistNames 0) "Unknown Artist")
             album := r.name
             imageUrl := orOpt (jsIndex r.imageUrls 0)
               (orOpt (jsIndex r.imageUrls 1) (jsIndex r.imageUrls 2))
             uri := some uri
             type := some "album" }
    else none

/-- The playlist branch of the Cosmos phase (current variant). -/
def cosmosPlaylistMeta (uri : String) (resp : Option CosmosResponse) :
    Option TrackMetadata :=
  match resp with
  | none => none
  | some r =>
    if truthy r.name && !truthy r.code && !truthy r.error then
      some { name := orStr r.name "Unknown Playlist"
             artist := some (orStr (orOpt r.ownerDisplayName r.ownerName)
               "Unknown Owner")
             album := r.name
             imageUrl := orOpt (jsIndex r.imageUrls 0)
               (orOpt (jsIndex r.imageUrls 1) (jsIndex r.imageUrls 2))
             uri := some uri
             type := some "playlist" }
    else none

/-- The track branch of the older `DownloadStatusPage.tsx` variant: the guard
is only `if (response)` — a response carrying an `error`/`code` field is still
turned into metadata (with `name` falling back to `"Unknown Track"`). -/
def cosmosTrackMetaLegacy (uri : String) (resp : Option CosmosResponse) :
    Option TrackMetadata :=
  match resp with
  | none => none
  | some r =>
    some { name := orStr r.name "Unknown Track"
           artist := some (orStr (jsIndex r.artistNames 0) "Unknown Artist")
           album := some (orStr r.albumName "Unknown Album")
           imageUrl := orOpt (jsIndex r.albumImageUrls 0)
             (orOpt (jsIndex r.albumImageUrls 1) (jsIndex r.albumImageUrls 2))
           uri := some uri
           type := some "track" }

/-- The whole CosmosAsync block: skipped when `Spicetify.CosmosAsync` is
absent; a rejected `get` is caught (`catch (cosmosError)`) and leaves
`metadata` null; only the three known kinds have branches. -/
def cosmosPhase (env : FetchEnv) (ty id uri : String) : Option TrackMetadata :=
  if env.cosmosAvailable then
    if ty = "track" then
      match env.cosmosGet ty id with
      | Except.error _ => none
      | Except.ok resp => cosmosTrackMeta uri resp
    else if ty = "album" then
      match env.cosmosGet ty id with
      | Except.error _ => none
      | Except.ok resp => cosmosAlbumMeta uri resp
    else if ty = "playlist" then
      match env.cosmosGet ty id with
      | Except.error _ => none
      | Except.ok resp => cosmosPlaylistMeta uri resp
    else none
  else none

/-- The GraphQL fallback block, entered only `if (!metadata)`. The block
dispatches on the kind (`track`/`album`/`playlist` only); the per-field query
probing inside each branch catches every exception internally and either
assembles a `TrackMetadata` or leaves `metadata` null, which is what the
environment's `graphqlResolve` oracle supplies. -/
def graphqlPhase (env : FetchEnv) (ty uri : String) : Option TrackMetadata :=
  if ty = "track" || ty = "album" || ty = "playlist" then
    env.graphqlResolve ty uri
  else none

/-- `url.split("/")` as in JavaScript: the segments between slashes,
including empty ones (structurally recursive so that concrete runs evaluate). -/
def jsSplitSlashAux : List Char → List Char → List String
  | [], acc => [String.mk acc.reverse]
  | c :: cs, acc =>
    if c = '/' then String.mk acc.reverse :: jsSplitSlashAux cs []
    else jsSplitSlashAux cs (c :: acc)

/-- `url.split("/")`. -/
def jsSplitSlash (s : String) : List String := jsSplitSlashAux s.data []

/-- The final fallback of `fetchMetadata`: derive a crude entry from the
trailing path segment of the URL (`url.split("/")`,
`urlParts[urlParts.length - 1] || "Unknown"`). Always succeeds. -/
def urlFallback (url uri ty : String) : TrackMetadata :=
  let urlParts := jsSplitSlash url
  let name := orStr urlParts.getLast? "Unknown"
  { name := name
    artist := some "Unknown"
    album := some name
    imageUrl := none
    uri := some uri
    type := some ty }

/-- The provider chain of `fetchMetadata` between marking the URL as fetching
and storing the result: Cosmos first, GraphQL `if (!metadata)`, then the URL
fallback `if (!metadata)`. After the fallback, `metadata` is always non-null,
so the chain is total. -/
def resolveChain (env : FetchEnv) (url ty id uri : String) : TrackMetadata :=
  let m1 := cosmosPhase env ty id uri
  let m2 :=
    match m1 with
    | some m => some m
    | none => graphqlPhase env ty uri
  match m2 with
  | some m => m
  | none => urlFallback url uri ty

/-! ## Component state and the `fetchMetadata` phases

`fetchMetadata` has three synchronous sections: the dedup/cache gate up to
`metadataFetchingRef.current.add(url)` (no `await` before it, so the
check-and-mark is atomic), the success completion after the providers have
answered, and the catch completion. Each is one function; the mounted flag is
re-read from the state each phase, so teardown between phases is expressible. -/

/-- The component state: the `downloads` list, the metadata cache (both the
React state and the always-current ref hold the same object, so one field
embeds both), the in-flight URL set `metadataFetchingRef`, the lifecycle flag
`isMountedRef`, and the `loading`/`error`/`apiAvailable` state. -/
structure CompState where
  downloads : List DownloadStatus
  metadataCache : List (String × TrackMetadata)
  fetching : List String
  isMounted : Bool
  loading : Bool
  error : Option String
  apiAvailable : Bool
deriving Repr, DecidableEq

/-- How the synchronous prefix of `fetchMetadata` exits: each early `return`,
or `proceed` when the URL has been marked in-flight and the provider chain is
about to be invoked. -/
inductive GateOutcome where
  | notMounted
  | noUri
  | cachedHit (m : TrackMetadata)
  | alreadyFetching (r : Option TrackMetadata)
  | proceed (ty id uri : String)
deriving Repr, DecidableEq

/-- The dedup/cache gate of `fetchMetadata` (everything before the first
`await`): mounted check; `urlToUri` fast-fail; return a valid cached entry;
return early if the URL is already in the in-flight set; otherwise re-check
the mounted flag and mark the URL as fetching. `ty`/`id` are
`uri.split(":")[1]`/`[2]`, which for the `spotify:kind:id` string built by
`urlToUri` are exactly the captured kind and id. -/
def fetchMetadataGate (s : CompState) (url : String) : CompState × GateOutcome :=
  if s.isMounted = false then (s, GateOutcome.notMounted)
  else
    match urlToParts url with
    | none => (s, GateOutcome.noUri)
    | some (ty, id) =>
      match cacheGet s.metadataCache url with
      | some m =>
        if isValidName m.name then (s, GateOutcome.cachedHit m)
        else if s.fetching.contains url then
          (s, GateOutcome.alreadyFetching (some m))
        else if s.isMounted = false then (s, GateOutcome.notMounted)
        else ({ s with fetching := fetchAdd s.fetching url },
              GateOutcome.proceed ty id ("spotify:" ++ ty ++ ":" ++ id))
      | none =>
        if s.fetching.contains url then (s, GateOutcome.alreadyFetching none)
        else if s.isMounted = false then (s, GateOutcome.notMounted)
        else ({ s with fetching := fetchAdd s.fetching url },
              GateOutcome.proceed ty id ("spotify:" ++ ty ++ ":" ++ id))

/-- The success completion of `fetchMetadata` (the `if (metadata)` block plus
the `finally`): if the component has unmounted while the providers were
running, return null without touching the cache — the `finally` still removes
the URL from the in-flight set; otherwise store the entry and clear the
in-flight mark. -/
def fetchMetadataComplete (s : CompState) (url : String) (md : TrackMetadata) :
    CompState × Option TrackMetadata :=
  if s.isMounted = false then
    ({ s with fetching := fetchRemove s.fetching url }, none)
  else
    ({ s with metadataCache := cacheSet s.metadataCache url md
              fetching := fetchRemove s.fetching url }, some md)

/-- The catch completion of `fetchMetadata` (the `catch (err)` block plus the
`finally`): dropped silently when unmounted (the in-flight mark is still
cleared by the `finally`); otherwise the failure sentinel is written, but only
if there is no valid metadata already. -/
def fetchMetadataCatch (s : CompState) (url uriStr ty : String) : CompState :=
  if s.isMounted = false then
    { s with fetching := fetchRemove s.fetching url }
  else if isValidMetadata? (cacheGet s.metadataCache url) then
    { s with fetching := fetchRemove s.fetching url }
  else
    { s with
        metadataCache := cacheSet s.metadataCache url
          { name := failedSentinel, uri := some uriStr, type := some ty },
        fetching := fetchRemove s.fetching url }

/-- One full run of `fetchMetadata`, under the interleaving in which no other
event fires between the gate and the completion. The provider chain never
throws (every provider exception is caught inside the chain and the URL
fallback is total), so the success completion is the only completion reached
from `proceed`. -/
def fetchMetadata (env : FetchEnv) (s : CompState) (url : String) :
    CompState × Option TrackMetadata :=
  match fetchMetadataGate s url with
  | (s', GateOutcome.proceed ty id uri) =>
    fetchMetadataComplete s' url (resolveChain env url ty id uri)
  | (s', GateOutcome.cachedHit m) => (s', some m)
  | (s', GateOutcome.alreadyFetching r) => (s', r)
  | (s', GateOutcome.notMounted) => (s', none)
  | (s', GateOutcome.noUri) => (s', none)

/-! ## The poll tick (`fetchStatus`) -/

/-- The placeholder entry written by the tick for an uncached job:
`{ name: "Loading...", uri: urlToUri(download.url) || undefined }`. -/
def loadingEntry (url : String) : TrackMetadata :=
  { name := loadingSentinel, uri := urlToUri url }

/-- The body of `downloadsList.forEach` in `fetchStatus`: skip if the cache
entry is valid or the URL is in-flight; write the loading placeholder only
when there is no entry at all (with the redundant re-read safety check kept
from the source); then fire `fetchMetadata`. The whole body up to the first
`await` inside `fetchMetadata` is synchronous; this function additionally
runs the spawned resolution to completion, i.e. it is the tick under the
interleaving in which each resolution settles before the next job is
processed. -/
def tickProcessJob (env : FetchEnv) (s : CompState) (d : DownloadStatus) :
    CompState :=
  if s.isMounted = false then s
  else if !isValidMetadata? (cacheGet s.metadataCache d.url)
      && !s.fetching.contains d.url then
    match cacheGet s.metadataCache d.url with
    | none =>
      let s1 :=
        if !isValidMetadata? (cacheGet s.metadataCache d.url) then
          { s with
              metadataCache := cacheSet s.metadataCache d.url
                (loadingEntry d.url) }
        else s
      (fetchMetadata env s1 d.url).1
    | some _ => (fetchMetadata env s d.url).1
  else s

/-- `downloadsList.forEach(...)` over the whole list. -/
def tickProcessJobs (env : FetchEnv) (s : CompState) :
    List DownloadStatus → CompState
  | [] => s
  | d :: rest => tickProcessJobs env (tickProcessJob env s d) rest

/-- The localized banner `t("notifications.apiUnavailable")` shown when the
health check fails, represented by its i18n key (the locale is ambient; the
English table reads "Cannot connect to SpiceDL API server. Please check if
the server is running."). -/
def apiUnavailableMsg : String := "notifications.apiUnavailable"

/-- One poll tick's network outcomes: the health check result (`checkHealth`
never rejects — it resolves `false` on any error) and the job-list fetch
outcome (`getDownloadStatus` rethrows, carrying an error message). -/
structure TickEnv where
  healthy : Bool
  statusResult : Except String StatusResponse

/-- The continuation of `fetchStatus` after `await statusPromise` resolves or
rejects: on rejection the catch sets the error banner (and the `finally`
clears `loading`); on success the job list is replaced wholesale, each job is
fed to the dedup gate, and the error banner is cleared — every branch
re-checks the mounted flag first and is dropped silently when it is off. -/
def afterStatus (env : FetchEnv) (s : CompState)
    (res : Except String StatusResponse) : CompState :=
  match res with
  | Except.error msg =>
    if s.isMounted = false then s
    else { s with error := some msg, loading := false }
  | Except.ok status =>
    if s.isMounted = false then s
    else
      let downloadsList := statusToList status
      let s1 := { s with downloads := downloadsList }
      let s2 := tickProcessJobs env s1 downloadsList
      if s2.isMounted = false then s2
      else { s2 with error := none, loading := false }

/-- The continuation of `fetchStatus` after `await healthPromise`: dropped if
unmounted; `setApiAvailable(isHealthy)`; if unhealthy, surface the banner,
stop loading and return — the job-list fetch is skipped; otherwise continue
with the job-list outcome. -/
def afterHealth (tenv : TickEnv) (env : FetchEnv) (s : CompState) : CompState :=
  if s.isMounted = false then s
  else
    let s1 := { s with apiAvailable := tenv.healthy }
    if tenv.healthy = false then
      { s1 with error := some apiUnavailableMsg, loading := false }
    else afterStatus env s1 tenv.statusResult

/-- One whole poll tick (`fetchStatus`), under the interleaving with no
teardown or other event between its suspension points: the entry mounted
check, then the health continuation. -/
def fetchStatusTick (tenv : TickEnv) (env : FetchEnv) (s : CompState) :
    CompState :=
  if s.isMounted = false then s
  else afterHealth tenv env s

/-! ## View model projection -/

/-- `filteredDownloads`: the filter cascade over the current filter key. -/
def filterPred (filter : String) (dl : DownloadStatus) : Bool :=
  if filter = "all" then true
  else if filter = "active" then
    dl.status = DLStatus.downloading || dl.status = DLStatus.starting
  else if filter = "completed" then dl.status = DLStatus.completed
  else if filter = "failed" then dl.status = DLStatus.failed
  else if filter = "cancelled" then dl.status = DLStatus.cancelled
  else true

/-- `downloads.filter(...)` computing the visible list for the active filter
key. Pure and synchronous. -/
def filteredDownloads (downloads : List DownloadStatus) (filter : String) :
    List DownloadStatus :=
  downloads.filter (filterPred filter)

/-- The `stats` record of the component. -/
structure Stats where
  total : Nat
  active : Nat
  completed : Nat
  failed : Nat
  cancelled : Nat
deriving Repr, DecidableEq

/-- The aggregate counters computed on every render: total length and one
`filter(...).length` per category, `active` matching downloading or starting. -/
def stats (downloads : List DownloadStatus) : Stats :=
  { total := downloads.length
    active := (downloads.filter (fun d =>
      d.status = DLStatus.downloading || d.status = DLStatus.starting)).length
    completed := (downloads.filter (fun d =>
      d.status = DLStatus.completed)).length
    failed := (downloads.filter (fun d => d.status = DLStatus.failed)).length
    cancelled := (downloads.filter (fun d =>
      d.status = DLStatus.cancelled)).length }

/-! ## The spec's `peek` view of the cache

The source encodes resolution state in sentinel `name` strings plus the
in-flight set; the spec's `peek(subjectUrl) -> (MetadataEntry|None,
ResolutionState)` is that encoding made explicit. The following two
definitions follow the spec's words (§3 and §4.2) and are used to state the
claims phrased in terms of `ResolutionState`. -/

/-- The spec's `ResolutionState ∈ {Unresolved, Pending, Resolved, Failed}`. -/
inductive ResolutionState where
  | unresolved
  | pending
  | resolved
  | failed
deriving Repr, DecidableEq

/-- The spec's `peek`, decoded from the source's sentinel encoding: no entry
is Unresolved (or Pending while the URL is in-flight); the loading sentinel is
Pending; the failure sentinel is Failed with no metadata; anything else is
Resolved metadata. -/
def specPeek (s : CompState) (url : String) :
    Option TrackMetadata × ResolutionState :=
  match cacheGet s.metadataCache url with
  | none =>
    (none, if s.fetching.contains url then ResolutionState.pending
           else ResolutionState.unresolved)
  | some m =>
    if m.name = loadingSentinel then (none, ResolutionState.pending)
    else if m.name = failedSentinel then (none, ResolutionState.failed)
    else (some m, ResolutionState.resolved)

/-! ## The API client (`api.ts`) -/

/-- The one field of a `fetch` `Response` that `checkHealth` reads. -/
structure HealthResponse where
  ok : Bool
deriving Repr, DecidableEq

/-- `checkHealth` from the API client: `return response.ok` on a settled
fetch, and `return false` from the catch on any network error — it never
rethrows. -/
def checkHealth : Except Unit HealthResponse → Bool
  | Except.ok r => r.ok
  | Except.error _ => false

/-! ## Helper lemmas about the cache and the phase functions -/

/-- Reading back the written key. -/
theorem cacheGet_cacheSet_self (c : List (String × TrackMetadata))
    (url : String) (m : TrackMetadata) :
    cacheGet (cacheSet c url m) url = some m := by
  simp [cacheSet, cacheGet]

/-- Dropping all bindings of one key does not disturb reads at another. -/
theorem cacheGet_filter_ne (c : List (String × TrackMetadata))
    (url url' : String) (h : url' ≠ url) :
    cacheGet (c.filter (fun kv => !(kv.1 = url))) url' = cacheGet c url' := by
  induction c with
  | nil => rfl
  | cons kv rest ih =>
    by_cases hk : kv.1 = url
    · have hne : ¬kv.1 = url' := fun hh => h (hh.symm.trans hk)
      simp [List.filter_cons, hk, cacheGet, hne, ih, Ne.symm h]
    · by_cases hk' : kv.1 = url'
      · simp [List.filter_cons, hk, cacheGet, hk', h]
      · simp [List.filter_cons, hk, cacheGet, hk', ih]

/-- A write at one key does not disturb reads at another. -/
theorem cacheGet_cacheSet_ne (c : List (String × TrackMetadata))
    (url url' : String) (m : TrackMetadata) (h : url' ≠ url) :
    cacheGet (cacheSet c url m) url' = cacheGet c url' := by
  have hne : ¬url = url' := fun hh => h hh.symm
  simp only [cacheSet, cacheGet, if_neg hne]
  exact cacheGet_filter_ne c url url' h

/-- The gate never changes the cache, the job list, or the mounted flag (it
only adds the probed URL to the in-flight set). -/
theorem fetchMetadataGate_frame (s : CompState) (url : String) :
    (fetchMetadataGate s url).1.metadataCache = s.metadataCache
      ∧ (fetchMetadataGate s url).1.downloads = s.downloads
      ∧ (fetchMetadataGate s url).1.isMounted = s.isMounted := by
  unfold fetchMetadataGate
  repeat' split
  all_goals exact ⟨rfl, rfl, rfl⟩

/-- A full `fetchMetadata` run writes at most the probed key: reads at any
other key are undisturbed, and the job list and mounted flag are unchanged. -/
theorem fetchMetadata_frame (env : FetchEnv) (s : CompState) (url url' : String)
    (h : url' ≠ url) :
    cacheGet (fetchMetadata env s url).1.metadataCache url'
        = cacheGet s.metadataCache url'
      ∧ (fetchMetadata env s url).1.downloads = s.downloads
      ∧ (fetchMetadata env s url).1.isMounted = s.isMounted := by
  have hfr := fetchMetadataGate_frame s url
  unfold fetchMetadata
  cases hg : fetchMetadataGate s url with
  | mk s' out =>
    rw [hg] at hfr
    obtain ⟨hc, hd, hm⟩ := hfr
    cases out with
    | proceed ty id uri =>
      simp only [fetchMetadataComplete]
      split
      · refine ⟨?_, hd, hm⟩
        show cacheGet s'.metadataCache url' = cacheGet s.metadataCache url'
        rw [hc]
      · refine ⟨?_, hd, hm⟩
        show cacheGet (cacheSet s'.metadataCache url
          (resolveChain env url ty id uri)) url' = cacheGet s.metadataCache url'
        rw [cacheGet_cacheSet_ne _ url url' _ h, hc]
    | cachedHit m =>
      refine ⟨?_, hd, hm⟩
      show cacheGet s'.metadataCache url' = cacheGet s.metadataCache url'
      rw [hc]
    | alreadyFetching r =>
      refine ⟨?_, hd, hm⟩
      show cacheGet s'.metadataCache url' = cacheGet s.metadataCache url'
      rw [hc]
    | notMounted =>
      refine ⟨?_, hd, hm⟩
      show cacheGet s'.metadataCache url' = cacheGet s.metadataCache url'
      rw [hc]
    | noUri =>
      refine ⟨?_, hd, hm⟩
      show cacheGet s'.metadataCache url' = cacheGet s.metadataCache url'
      rw [hc]

/-- Whether a call to `fetchMetadata` on this state reaches the provider
chain (exits the gate through `proceed`). -/
def gateInvokes (s : CompState) (url : String) : Bool :=
  match (fetchMetadataGate s url).2 with
  | GateOutcome.proceed _ _ _ => true
  | _ => false

/-- While a URL is in the in-flight set, the gate neither invokes the
provider chain nor changes the state, whatever the cache holds. -/
theorem gate_inflight_no_invoke (t : CompState) (url : String)
    (ht : t.fetching.contains url = true) :
    gateInvokes t url = false ∧ (fetchMetadataGate t url).1 = t := by
  have ht' : url ∈ t.fetching := by simpa using ht
  by_cases hm : t.isMounted = false
  · simp [gateInvokes, fetchMetadataGate, hm]
  · cases hup : urlToParts url with
    | none => simp [gateInvokes, fetchMetadataGate, hm, hup]
    | some p =>
      obtain ⟨ty, id⟩ := p
      cases hcg : cacheGet t.metadataCache url with
      | none => simp [gateInvokes, fetchMetadataGate, hm, hup, hcg, ht']
      | some m =>
        by_cases hv : isValidName m.name
        · simp [gateInvokes, fetchMetadataGate, hm, hup, hcg, hv]
        · simp [gateInvokes, fetchMetadataGate, hm, hup, hcg, hv, ht']

/-- When the component is mounted, the URL parses, the cache entry is absent
or a sentinel, and the URL is not in flight, the gate marks the URL as
fetching and proceeds to the provider chain. -/
theorem fetchMetadataGate_proceed (s : CompState) (url ty id : String)
    (hm : s.isMounted = true)
    (hp : urlToParts url = some (ty, id))
    (hv : isValidMetadata? (cacheGet s.metadataCache url) = false)
    (hf : s.fetching.contains url = false) :
    fetchMetadataGate s url =
      ({ s with fetching := url :: s.fetching },
       GateOutcome.proceed ty id ("spotify:" ++ ty ++ ":" ++ id)) := by
  have hf' : url ∉ s.fetching := by simpa using hf
  cases hcg : cacheGet s.metadataCache url with
  | none => simp [fetchMetadataGate, hm, hp, hcg, hf', fetchAdd, hf]
  | some m =>
    have hvn : isValidName m.name = false := by
      simpa [isValidMetadata?, hcg] using hv
    simp [fetchMetadataGate, hm, hp, hcg, hf', hvn, fetchAdd, hf]

/-- The tick body leaves every valid cache entry in place: a subject whose
entry is valid is skipped, and processing any other subject writes only at
that subject's own key. -/
theorem tickProcessJob_preserves_entry (env : FetchEnv) (t : CompState)
    (url2 : String) (mres : TrackMetadata) (d : DownloadStatus)
    (hc2 : cacheGet t.metadataCache url2 = some mres)
    (hv2 : isValidName mres.name = true) :
    cacheGet (tickProcessJob env t d).metadataCache url2 = some mres := by
  by_cases hmt : t.isMounted = false
  · simp [tickProcessJob, hmt, hc2]
  · by_cases hval : isValidMetadata? (cacheGet t.metadataCache d.url) = true
    · simp [tickProcessJob, hmt, hval, hc2]
    · have hval' : isValidMetadata? (cacheGet t.metadataCache d.url) = false := by
        simpa using hval
      by_cases hfet : t.fetching.contains d.url = true
      · have hfet2 : d.url ∈ t.fetching := by simpa using hfet
        simp [tickProcessJob, hmt, hval', hfet2, hc2]
      · have hfet' : t.fetching.contains d.url = false := by simpa using hfet
        have hfet2 : d.url ∉ t.fetching := by simpa using hfet'
        have hne : url2 ≠ d.url := by
          intro hh
          rw [← hh, hc2] at hval'
          simp [isValidMetadata?, hv2] at hval'
        cases hcg : cacheGet t.metadataCache d.url with
        | some mm =>
          have hfr := (fetchMetadata_frame env t d.url url2 hne).1
          have hvmm : isValidMetadata? (some mm) = false := by
            rw [← hcg]; exact hval'
          simp [tickProcessJob, hmt, hval', hfet2, hcg, hfr, hc2, hvmm]
        | none =>
          have hmT : t.isMounted = true := by simpa using hmt
          have hfr := (fetchMetadata_frame env
            ({ t with metadataCache := cacheSet t.metadataCache d.url (loadingEntry d.url) })
            d.url url2 hne).1
          have hset : cacheGet (cacheSet t.metadataCache d.url (loadingEntry d.url)) url2
              = some mres := by
            rw [cacheGet_cacheSet_ne _ _ _ _ hne, hc2]
          rw [hmT] at hfr
          simp [tickProcessJob, hmt, hval', hfet2, hcg, isValidMetadata?]
          rw [hfr]
          exact hset

/-! ## C1: at most one in-flight resolution per subject -/

/-- **C1.** While a resolution for a URL is pending (the URL is in the
in-flight set of state `t`), any further `fetchMetadata` call performs no
provider-chain invocation and leaves the state unchanged, and the tick body
skips the subject entirely; hence two overlapping ticks that both observe the
same unresolved subject (state `s`) cause exactly one provider-chain
invocation: the first call proceeds and marks the URL in-flight, after which
the second call does not proceed and changes nothing. -/
theorem dedup_at_most_one_inflight (s t : CompState) (url ty id : String)
    (d : DownloadStatus) (env : FetchEnv)
    (ht : t.fetching.contains url = true) (hd : d.url = url)
    (hm : s.isMounted = true) (hp : urlToParts url = some (ty, id))
    (hv : isValidMetadata? (cacheGet s.metadataCache url) = false)
    (hf : s.fetching.contains url = false) :
    gateInvokes t url = false
      ∧ (fetchMetadataGate t url).1 = t
      ∧ tickProcessJob env t d = t
      ∧ gateInvokes s url = true
      ∧ (fetchMetadataGate s url).1.fetching.contains url = true
      ∧ gateInvokes (fetchMetadataGate s url).1 url = false
      ∧ (fetchMetadataGate (fetchMetadataGate s url).1 url).1
          = (fetchMetadataGate s url).1 := by
  obtain ⟨ht1, ht2⟩ := gate_inflight_no_invoke t url ht
  have ht' : url ∈ t.fetching := by simpa using ht
  have htick : tickProcessJob env t d = t := by
    by_cases hmt : t.isMounted = false
    · simp [tickProcessJob, hmt]
    · simp [tickProcessJob, hmt, hd, ht']
  have hgate := fetchMetadataGate_proceed s url ty id hm hp hv hf
  have hcontains :
      (fetchMetadataGate s url).1.fetching.contains url = true := by
    rw [hgate]
    simp [List.contains_cons]
  obtain ⟨hs1, hs2⟩ := gate_inflight_no_invoke (fetchMetadataGate s url).1 url
    hcontains
  refine ⟨ht1, ht2, htick, ?_, hcontains, hs1, hs2⟩
  rw [gateInvokes, hgate]

/-! ## C2: idempotence once resolved -/

/-- **C2.** For a subject whose cache entry is valid (non-placeholder)
metadata, every further `fetchMetadata` call — under any provider
environment, so without any network call — returns the cached entry and
leaves the state unchanged (no cache write), and the tick body skips the
subject. -/
theorem resolved_idempotent (env : FetchEnv) (s : CompState) (url ty id : String)
    (m : TrackMetadata) (d : DownloadStatus)
    (hm : s.isMounted = true) (hp : urlToParts url = some (ty, id))
    (hc : cacheGet s.metadataCache url = some m)
    (hv : isValidName m.name = true) (hd : d.url = url) :
    fetchMetadata env s url = (s, some m)
      ∧ tickProcessJob env s d = s := by
  have hgate : fetchMetadataGate s url = (s, GateOutcome.cachedHit m) := by
    simp [fetchMetadataGate, hm, hp, hc, hv]
  constructor
  · rw [fetchMetadata, hgate]
  · have hval : isValidMetadata? (cacheGet s.metadataCache d.url) = true := by
      rw [hd, hc]; simpa [isValidMetadata?] using hv
    simp [tickProcessJob, hm, hval]

/-! ## C3: Failed entries are retried, Resolved entries are stable -/

/-- **C3.** A subject whose cache entry carries the failure sentinel is
treated like an unresolved one: the next `fetchMetadata` call passes the gate
and invokes the provider chain. A subject whose entry is valid resolved
metadata keeps that exact entry across the processing of any job by a poll
tick — in particular it is never replaced by the loading placeholder and
never re-resolved. -/
theorem failed_retried_resolved_stable (env : FetchEnv) (s t : CompState)
    (url url2 ty id : String) (mfail mres : TrackMetadata) (d : DownloadStatus)
    (hm : s.isMounted = true) (hp : urlToParts url = some (ty, id))
    (hcf : cacheGet s.metadataCache url = some mfail)
    (hn : mfail.name = failedSentinel)
    (hf : s.fetching.contains url = false)
    (hc2 : cacheGet t.metadataCache url2 = some mres)
    (hv2 : isValidName mres.name = true) :
    gateInvokes s url = true
      ∧ cacheGet (tickProcessJob env t d).metadataCache url2 = some mres := by
  have hv : isValidMetadata? (cacheGet s.metadataCache url) = false := by
    rw [hcf]
    simp [isValidMetadata?, isValidName, hn, failedSentinel, loadingSentinel]
  have hgate := fetchMetadataGate_proceed s url ty id hm hp hv hf
  refine ⟨?_, tickProcessJob_preserves_entry env t url2 mres d hc2 hv2⟩
  rw [gateInvokes, hgate]

/-! ## C4: no mutation after teardown -/

/-- **C4.** Once the lifecycle guard is inactive (the mounted flag is off),
every asynchronous completion is dropped silently: the success and catch
completions of a pending metadata resolution leave the cache and the job list
unchanged (only the resolution's own in-flight mark is cleared by the
`finally`), the post-await continuations of a poll tick leave the state
entirely unchanged, and a whole tick or `fetchMetadata` call started on the
torn-down state is a no-op. -/
theorem teardown_drops_completions (s : CompState) (h : s.isMounted = false)
    (env : FetchEnv) (tenv : TickEnv) (url uriStr ty : String)
    (md : TrackMetadata) (res : Except String StatusResponse)
    (d : DownloadStatus) :
    (fetchMetadataComplete s url md).1.metadataCache = s.metadataCache
      ∧ (fetchMetadataComplete s url md).1.downloads = s.downloads
      ∧ (fetchMetadataComplete s url md).2 = none
      ∧ (fetchMetadataCatch s url uriStr ty).metadataCache = s.metadataCache
      ∧ (fetchMetadataCatch s url uriStr ty).downloads = s.downloads
      ∧ afterStatus env s res = s
      ∧ afterHealth tenv env s = s
      ∧ fetchStatusTick tenv env s = s
      ∧ fetchMetadata env s url = (s, none)
      ∧ tickProcessJob env s d = s := by
  have hgate : fetchMetadataGate s url = (s, GateOutcome.notMounted) := by
    simp [fetchMetadataGate, h]
  refine ⟨?_, ?_, ?_, ?_, ?_, ?_, ?_, ?_, ?_, ?_⟩
  · simp [fetchMetadataComplete, h]
  · simp [fetchMetadataComplete, h]
  · simp [fetchMetadataComplete, h]
  · simp [fetchMetadataCatch, h]
  · simp [fetchMetadataCatch, h]
  · cases res <;> simp [afterStatus, h]
  · simp [afterHealth, h]
  · simp [fetchStatusTick, h]
  · simp [fetchMetadata, hgate]
  · simp [tickProcessJob, h]

/-! ## C8: a failing poll tick leaves the job list untouched -/

/-- **C8.** When the health check reports unhealthy, the tick surfaces the
single recoverable banner and stops loading, and the job-list fetch is
skipped — the tick's result does not depend on the fetch outcome at all;
when the health check passes but the job-list fetch throws, the tick
surfaces the thrown message instead. In both failure modes the job list is
left exactly as the last successful poll left it. -/
theorem poll_failure_leaves_jobs (env : FetchEnv) (s : CompState)
    (r r2 : Except String StatusResponse) (msg : String)
    (hm : s.isMounted = true) :
    fetchStatusTick ⟨false, r⟩ env s
        = { s with apiAvailable := false, error := some apiUnavailableMsg,
                   loading := false }
      ∧ fetchStatusTick ⟨false, r2⟩ env s = fetchStatusTick ⟨false, r⟩ env s
      ∧ fetchStatusTick ⟨true, Except.error msg⟩ env s
        = { s with apiAvailable := true, error := some msg,
                   loading := false } := by
  refine ⟨?_, ?_, ?_⟩ <;> simp [fetchStatusTick, afterHealth, afterStatus, hm]

/-! ## Concrete fixtures for the scenarios and witnesses -/

/-- A subject URL matching the track pattern, with kind `track`, id `abc`. -/
def cexUrl : String := "https://open.spotify.com/track/abc"

/-- A job targeting `cexUrl`, as in the spec's scenarios. -/
def sampleJob : DownloadStatus :=
  { id := "a", url := cexUrl, status := DLStatus.downloading, progress := 40,
    message := "", started_at := "2024-01-01T00:00:00", completed_at := none,
    error := none }

/-- A freshly mounted component state with an empty cache. -/
def mountedEmpty : CompState :=
  { downloads := [], metadataCache := [], fetching := [], isMounted := true,
    loading := true, error := none, apiAvailable := false }

/-- Fully resolved metadata for `cexUrl`, as in the spec's happy-path
scenario. -/
def goodMeta : TrackMetadata :=
  { name := "Song", artist := some "Artist", album := some "Album",
    imageUrl := some "http://img", uri := some "spotify:track:abc",
    type := some "track" }

/-- A state whose cache holds valid resolved metadata for `cexUrl`. -/
def resolvedState : CompState :=
  { mountedEmpty with metadataCache := [(cexUrl, goodMeta)] }

/-- The failure-sentinel entry for `cexUrl`. -/
def failedMeta : TrackMetadata :=
  { name := failedSentinel, uri := some "spotify:track:abc",
    type := some "track" }

/-- A state whose cache holds a Failed entry for `cexUrl`. -/
def failedState : CompState :=
  { mountedEmpty with metadataCache := [(cexUrl, failedMeta)] }

/-- The primary-provider error payload of the spec's scenario:
`{error:"not_found"}`. -/
def notFoundResp : CosmosResponse := { error := some "not_found" }

/-- A provider environment in which CosmosAsync answers every request with
the `{error:"not_found"}` payload and every GraphQL query yields nothing:
the primary returns an error payload and the secondary fails. -/
def errEnv : FetchEnv :=
  { cosmosAvailable := true
    cosmosGet := fun _ _ => Except.ok (some notFoundResp)
    graphqlResolve := fun _ _ => none }

/-- A URL that does not match the track/album/playlist/artist pattern. -/
def nonSubjectUrl : String := "https://example.com/foo"

/-- A job whose subject URL does not match the pattern. -/
def nonSubjectJob : DownloadStatus :=
  { id := "b", url := nonSubjectUrl, status := DLStatus.downloading,
    progress := 40, message := "", started_at := "2024-01-01T00:00:00",
    completed_at := none, error := none }

/-! ## C5: an error payload from the primary provider -/

/-- **C5 (counterexample).** In the spec's scenario — the primary provider
returns `{error:"not_found"}` and the secondary also fails — the claim says
the subject's cache state becomes Failed and `peek` returns `(None, Failed)`.
On the code it does not: the URL-segment fallback always succeeds, so the
cache entry becomes the Resolved fallback entry (name `"abc"`), and `peek`
returns it with state Resolved, not `(None, Failed)`. -/
theorem error_payload_not_failed_cex :
    specPeek (fetchMetadata errEnv mountedEmpty cexUrl).1 cexUrl
        = (some { name := "abc", artist := some "Unknown", album := some "abc",
                  imageUrl := none, uri := some "spotify:track:abc",
                  type := some "track" }, ResolutionState.resolved)
      ∧ specPeek (fetchMetadata errEnv mountedEmpty cexUrl).1 cexUrl
          ≠ (none, ResolutionState.failed) := by
  exact ⟨by decide, by decide⟩

/-- **C5 (amended).** When the primary provider's response object carries an
`error` field, the current chain treats it as a failure — no metadata is
built from it — and falls through to the secondary provider; if the
secondary also fails, the URL-segment fallback supplies a minimal entry, so
the subject's cache entry becomes that Resolved fallback entry rather than
Failed (`peek` returns it as Resolved; Failed would require the resolution
to throw, which the total chain never does). In the older
`DownloadStatusPage.tsx` variant the check is absent and the same error
payload is accepted as metadata. -/
theorem error_payload_falls_through (env : FetchEnv) (s : CompState)
    (url ty id : String) (r : CosmosResponse)
    (hm : s.isMounted = true) (hp : urlToParts url = some (ty, id))
    (hty : ty = "track") (hav : env.cosmosAvailable = true)
    (henv : env.cosmosGet ty id = Except.ok (some r))
    (herr : truthy r.error = true)
    (hsec : env.graphqlResolve ty ("spotify:" ++ ty ++ ":" ++ id) = none)
    (hc : cacheGet s.metadataCache url = none)
    (hf : s.fetching.contains url = false) :
    cosmosTrackMeta ("spotify:" ++ ty ++ ":" ++ id) (some r) = none
      ∧ (fetchMetadata env s url).2
          = some (urlFallback url ("spotify:" ++ ty ++ ":" ++ id) ty)
      ∧ cacheGet (fetchMetadata env s url).1.metadataCache url
          = some (urlFallback url ("spotify:" ++ ty ++ ":" ++ id) ty)
      ∧ (cosmosTrackMetaLegacy ("spotify:" ++ ty ++ ":" ++ id) (some r)).isSome
          = true := by
  have hrej : cosmosTrackMeta ("spotify:" ++ ty ++ ":" ++ id) (some r) = none := by
    simp [cosmosTrackMeta, herr]
  have hrej2 : ∀ u, cosmosTrackMeta u (some r) = none := fun u => by
    simp [cosmosTrackMeta, herr]
  have hv : isValidMetadata? (cacheGet s.metadataCache url) = false := by
    rw [hc]; rfl
  have hgate := fetchMetadataGate_proceed s url ty id hm hp hv hf
  have hchain : resolveChain env url ty id ("spotify:" ++ ty ++ ":" ++ id)
      = urlFallback url ("spotify:" ++ ty ++ ":" ++ id) ty := by
    generalize huri : ("spotify:" ++ ty ++ ":" ++ id : String) = uriv at hsec ⊢
    subst hty
    simp [resolveChain, cosmosPhase, hav, henv, hrej2 uriv, graphqlPhase, hsec]
  have hfm : fetchMetadata env s url
      = ({ s with
            metadataCache := cacheSet s.metadataCache url
              (urlFallback url ("spotify:" ++ ty ++ ":" ++ id) ty),
            fetching := fetchRemove (url :: s.fetching) url },
         some (urlFallback url ("spotify:" ++ ty ++ ":" ++ id) ty)) := by
    simp [fetchMetadata, hgate, hchain, fetchMetadataComplete, hm]
  refine ⟨hrej, ?_, ?_, ?_⟩
  · rw [hfm]
  · rw [hfm]
    exact cacheGet_cacheSet_self _ _ _
  · simp [cosmosTrackMetaLegacy]

/-! ## C6: URLs that do not match the pattern -/

/-- **C6 (counterexample).** The claim says a non-matching subject URL is
marked Failed and not left Pending. On the code, processing such a job
writes the Loading placeholder and then `fetchMetadata` returns null without
touching it, so `peek` reports the entry as Pending — not Failed. -/
theorem nonmatching_left_pending_cex :
    specPeek (tickProcessJob emptyFetchEnv mountedEmpty nonSubjectJob)
        nonSubjectUrl = (none, ResolutionState.pending)
      ∧ specPeek (tickProcessJob emptyFetchEnv mountedEmpty nonSubjectJob)
          nonSubjectUrl ≠ (none, ResolutionState.failed) := by
  exact ⟨by decide, by decide⟩

/-- **C6 (amended).** For a subject URL that does not match the
track/album/playlist/artist pattern, resolution fails fast: `fetchMetadata`
returns null immediately with no provider invocation, no state change and no
in-flight marking, and processing the job leaves the in-flight set unchanged,
so no other subject's resolution is blocked; but the poll tick, having
already written the Loading placeholder for the uncached subject, leaves its
cache entry Pending (the Loading sentinel) rather than marking it Failed. -/
theorem nonmatching_fails_fast (env : FetchEnv) (s : CompState) (url : String)
    (d : DownloadStatus)
    (hu : urlToParts url = none) (hd : d.url = url)
    (hm : s.isMounted = true) (hc : cacheGet s.metadataCache url = none)
    (hf : s.fetching.contains url = false) :
    fetchMetadata env s url = (s, none)
      ∧ specPeek (tickProcessJob env s d) url = (none, ResolutionState.pending)
      ∧ (tickProcessJob env s d).fetching = s.fetching := by
  have hgate1 : fetchMetadataGate s url = (s, GateOutcome.noUri) := by
    simp [fetchMetadataGate, hm, hu]
  have hf2 : url ∉ s.fetching := by simpa using hf
  have h1 : fetchMetadata env s url = (s, none) := by
    simp [fetchMetadata, hgate1]
  have hgate2 : fetchMetadataGate
      ({ s with metadataCache := cacheSet s.metadataCache url (loadingEntry url) })
      url = ({ s with metadataCache := cacheSet s.metadataCache url (loadingEntry url) },
        GateOutcome.noUri) := by
    simp [fetchMetadataGate, hm, hu]
  have h2 : fetchMetadata env
      ({ s with metadataCache := cacheSet s.metadataCache url (loadingEntry url) })
      url = ({ s with metadataCache := cacheSet s.metadataCache url (loadingEntry url) },
        none) := by
    simp [fetchMetadata, hgate2]
  rw [hm] at h2
  have htick : tickProcessJob env s d
      = { s with metadataCache := cacheSet s.metadataCache url (loadingEntry url) } := by
    simp [tickProcessJob, hm, hd, hc, hf2, isValidMetadata?, h2]
  refine ⟨h1, ?_, ?_⟩
  · rw [htick]
    simp [specPeek, cacheGet_cacheSet_self, loadingEntry]
  · rw [htick]

/-! ## C7: the active filter projection -/

/-- **C7.** Projecting the job list with the `"active"` filter returns exactly
the jobs whose status is `starting` or `downloading`, in their original
relative order (the result is a sublist of the input); the projection is a
pure list function with no side effects. -/
theorem active_filter_exact (ds : List DownloadStatus) :
    (∀ d : DownloadStatus,
        d ∈ filteredDownloads ds "active" ↔
          d ∈ ds ∧ (d.status = DLStatus.starting ∨ d.status = DLStatus.downloading))
      ∧ (filteredDownloads ds "active").Sublist ds := by
  refine ⟨fun d => ?_, List.filter_sublist ds⟩
  simp only [filteredDownloads, List.mem_filter, filterPred]
  norm_num
  tauto

/-! ## C9: the stats partition invariant -/

/-- **C9.** For every job list the computed stats satisfy
`total = active + completed + failed + cancelled`: the five statuses
partition the list, with `active` counting `starting` and `downloading`. -/
theorem stats_partition (ds : List DownloadStatus) :
    (stats ds).total =
      (stats ds).active + (stats ds).completed + (stats ds).failed +
        (stats ds).cancelled := by
  simp only [stats]
  induction ds with
  | nil => rfl
  | cons d rest ih =>
    cases hd : d.status <;>
      simp [List.filter_cons, hd, List.length_cons] <;> omega

/-! ## C10: `checkHealth` is total -/

/-- **C10.** `checkHealth` returns a boolean for every outcome of the
`GET /health` request: `true` exactly when the fetch settled with an `ok`
response, and `false` both for a settled non-ok response and for a rejected
fetch (the catch) — it never throws. -/
theorem checkHealth_total (o : Except Unit HealthResponse) (e : Unit)
    (r : HealthResponse) :
    (checkHealth o = true ↔ ∃ r', o = Except.ok r' ∧ r'.ok = true)
      ∧ checkHealth (Except.error e) = false
      ∧ checkHealth (Except.ok r) = r.ok := by
  refine ⟨?_, rfl, rfl⟩
  cases o with
  | ok r' => simp [checkHealth]
  | error e' => simp [checkHealth]

/-! ## Witnesses: the hypothesis-bearing theorems at concrete inputs -/

/-- A torn-down component state. -/
def teardownState : CompState := { mountedEmpty with isMounted := false }

/-- C1 at the concrete scenario: the track URL, a fresh state, and a state
with the URL already in flight. -/
theorem dedup_at_most_one_inflight_witness :
    gateInvokes { mountedEmpty with fetching := [cexUrl] } cexUrl = false
      ∧ (fetchMetadataGate { mountedEmpty with fetching := [cexUrl] } cexUrl).1
          = { mountedEmpty with fetching := [cexUrl] }
      ∧ tickProcessJob emptyFetchEnv { mountedEmpty with fetching := [cexUrl] }
          sampleJob = { mountedEmpty with fetching := [cexUrl] }
      ∧ gateInvokes mountedEmpty cexUrl = true
      ∧ (fetchMetadataGate mountedEmpty cexUrl).1.fetching.contains cexUrl = true
      ∧ gateInvokes (fetchMetadataGate mountedEmpty cexUrl).1 cexUrl = false
      ∧ (fetchMetadataGate (fetchMetadataGate mountedEmpty cexUrl).1 cexUrl).1
          = (fetchMetadataGate mountedEmpty cexUrl).1 :=
  dedup_at_most_one_inflight mountedEmpty
    { mountedEmpty with fetching := [cexUrl] } cexUrl "track" "abc" sampleJob
    emptyFetchEnv (by decide) rfl rfl (by decide) rfl rfl

/-- C2 at the concrete scenario: a state whose cache already holds resolved
metadata for the track URL. -/
theorem resolved_idempotent_witness :
    fetchMetadata emptyFetchEnv resolvedState cexUrl
        = (resolvedState, some goodMeta)
      ∧ tickProcessJob emptyFetchEnv resolvedState sampleJob = resolvedState :=
  resolved_idempotent emptyFetchEnv resolvedState cexUrl "track" "abc" goodMeta
    sampleJob rfl (by decide) (by decide) (by decide) rfl

/-- C3 at the concrete scenario: a Failed entry is retried; a Resolved entry
survives a tick that re-observes the same job. -/
theorem failed_retried_resolved_stable_witness :
    gateInvokes failedState cexUrl = true
      ∧ cacheGet
          (tickProcessJob emptyFetchEnv resolvedState sampleJob).metadataCache
          cexUrl = some goodMeta :=
  failed_retried_resolved_stable emptyFetchEnv failedState resolvedState cexUrl
    cexUrl "track" "abc" failedMeta goodMeta sampleJob rfl (by decide)
    (by decide) rfl rfl (by decide) (by decide)

/-- C4 at the concrete scenario: every completion applied to the torn-down
state. -/
theorem teardown_drops_completions_witness :
    (fetchMetadataComplete teardownState cexUrl goodMeta).1.metadataCache
        = teardownState.metadataCache
      ∧ (fetchMetadataComplete teardownState cexUrl goodMeta).1.downloads
          = teardownState.downloads
      ∧ (fetchMetadataComplete teardownState cexUrl goodMeta).2 = none
      ∧ (fetchMetadataCatch teardownState cexUrl "spotify:track:abc"
          "track").metadataCache = teardownState.metadataCache
      ∧ (fetchMetadataCatch teardownState cexUrl "spotify:track:abc"
          "track").downloads = teardownState.downloads
      ∧ afterStatus emptyFetchEnv teardownState (Except.error "boom")
          = teardownState
      ∧ afterHealth ⟨true, Except.error "boom"⟩ emptyFetchEnv teardownState
          = teardownState
      ∧ fetchStatusTick ⟨true, Except.error "boom"⟩ emptyFetchEnv teardownState
          = teardownState
      ∧ fetchMetadata emptyFetchEnv teardownState cexUrl = (teardownState, none)
      ∧ tickProcessJob emptyFetchEnv teardownState sampleJob = teardownState :=
  teardown_drops_completions teardownState rfl emptyFetchEnv
    ⟨true, Except.error "boom"⟩ cexUrl "spotify:track:abc" "track" goodMeta
    (Except.error "boom") sampleJob

/-- C5 (amended) at the concrete scenario: the `{error:"not_found"}` payload
with a failing secondary. -/
theorem error_payload_falls_through_witness :
    cosmosTrackMeta ("spotify:" ++ "track" ++ ":" ++ "abc") (some notFoundResp)
        = none
      ∧ (fetchMetadata errEnv mountedEmpty cexUrl).2
          = some (urlFallback cexUrl ("spotify:" ++ "track" ++ ":" ++ "abc")
              "track")
      ∧ cacheGet (fetchMetadata errEnv mountedEmpty cexUrl).1.metadataCache
          cexUrl
          = some (urlFallback cexUrl ("spotify:" ++ "track" ++ ":" ++ "abc")
              "track")
      ∧ (cosmosTrackMetaLegacy ("spotify:" ++ "track" ++ ":" ++ "abc")
          (some notFoundResp)).isSome = true :=
  error_payload_falls_through errEnv mountedEmpty cexUrl "track" "abc"
    notFoundResp rfl (by decide) rfl rfl rfl (by decide) rfl rfl rfl

/-- C6 (amended) at the concrete scenario: the non-matching URL. -/
theorem nonmatching_fails_fast_witness :
    fetchMetadata emptyFetchEnv mountedEmpty nonSubjectUrl = (mountedEmpty, none)
      ∧ specPeek (tickProcessJob emptyFetchEnv mountedEmpty nonSubjectJob)
          nonSubjectUrl = (none, ResolutionState.pending)
      ∧ (tickProcessJob emptyFetchEnv mountedEmpty nonSubjectJob).fetching
          = mountedEmpty.fetching :=
  nonmatching_fails_fast emptyFetchEnv mountedEmpty nonSubjectUrl nonSubjectJob
    (by decide) rfl rfl rfl rfl

/-- C8 at the concrete scenario: one unhealthy tick (with two different
would-be fetch outcomes) and one healthy tick whose job-list fetch throws. -/
theorem poll_failure_leaves_jobs_witness :
    fetchStatusTick ⟨false, Except.error "x"⟩ emptyFetchEnv mountedEmpty
        = { mountedEmpty with apiAvailable := false,
                              error := some apiUnavailableMsg,
                              loading := false }
      ∧ fetchStatusTick ⟨false, Except.ok (StatusResponse.all [] 0)⟩
          emptyFetchEnv mountedEmpty
          = fetchStatusTick ⟨false, Except.error "x"⟩ emptyFetchEnv mountedEmpty
      ∧ fetchStatusTick ⟨true, Except.error "boom"⟩ emptyFetchEnv mountedEmpty
        = { mountedEmpty with apiAvailable := true,
                              error := some "boom",
                              loading := false } :=
  poll_failure_leaves_jobs emptyFetchEnv mountedEmpty (Except.error "x")
    (Except.ok (StatusResponse.all [] 0)) "boom" rfl

end SpiceDL
